import Mathlib

/-! Verification of the work-orders coverage tool (fscoverage.py).

Shallow embedding of the core of the Streamlit work-orders tool:
the georadar/coverage spatial join and classification, the session-state
seeding block, the display/export column projection, the bulk-fill
handler, the conditional child-location fill, and the 27-minute
temporal scheduler.

A pandas DataFrame is modelled column-major: an ordered association list
from column name to the list of cell values.  Cell values are strings,
exact rationals (standing for the float64 columns; float `round(10)` is
modelled by exact rational rounding), timestamps in whole seconds, or
`na` (NaN / None).  All definitions follow the source line by line. -/

namespace FsCov

abbrev Col := String

/-- A cell of a DataFrame: a string, a numeric (float64, modelled as an
exact rational), a datetime (seconds), or NaN/None. -/
inductive Cell where
  | str : String → Cell
  | num : ℚ → Cell
  | time : ℤ → Cell
  | na : Cell
deriving DecidableEq, Repr

/-- A DataFrame, column-major: ordered list of (column name, values). -/
structure Table where
  cols : List (Col × List Cell)
deriving DecidableEq, Repr

/-- First-occurrence association-list lookup (the semantics of selecting a
column by name, and of Python-dict lookup on a de-duplicated list). -/
def alookup {κ α : Type} [DecidableEq κ] (c : κ) : List (κ × α) → Option α
  | [] => none
  | (k, v) :: rest => if k = c then some v else alookup c rest

def Table.colNames (t : Table) : List Col := t.cols.map Prod.fst

def Table.getCol (t : Table) (c : Col) : Option (List Cell) := alookup c t.cols

def Table.getColD (t : Table) (c : Col) : List Cell := (t.getCol c).getD []

/-- `c in df.columns`. -/
def Table.hasCol (t : Table) (c : Col) : Bool := (t.getCol c).isSome

/-- `len(df)`: the number of rows (length of the leading column). -/
def Table.nrows (t : Table) : ℕ :=
  match t.cols with
  | [] => 0
  | (_, vs) :: _ => vs.length

def Table.getCell (t : Table) (c : Col) (i : ℕ) : Option Cell := (t.getColD c)[i]?

/-- `df[c] = values`: replace the column if present, else append it. -/
def Table.setColValues (t : Table) (c : Col) (vs : List Cell) : Table :=
  if t.hasCol c then ⟨t.cols.map (fun p => if p.1 = c then (c, vs) else p)⟩
  else ⟨t.cols ++ [(c, vs)]⟩

/-- `df[c] = scalar`: broadcast a scalar over all rows. -/
def Table.setColScalar (t : Table) (c : Col) (v : Cell) : Table :=
  t.setColValues c (List.replicate t.nrows v)

/-- `df.rename(columns=m)` (returns a copy; the original is untouched). -/
def Table.renameCols (t : Table) (m : List (Col × Col)) : Table :=
  ⟨t.cols.map (fun p =>
    match alookup p.1 m with
    | some n => (n, p.2)
    | none => p)⟩

/-- `df.drop(columns=cs)`. -/
def Table.dropCols (t : Table) (cs : List Col) : Table :=
  ⟨t.cols.filter (fun p => decide (p.1 ∉ cs))⟩

/-- `df[cs]`: column selection/reordering by a list of names. -/
def Table.select (t : Table) (cs : List Col) : Table :=
  ⟨cs.map (fun c => (c, t.getColD c))⟩

/-! ## Spatial join and classification (lines 85-133 of fscoverage.py) -/

/-- `Series.round(10)` on a coordinate, modelled by exact rational rounding
to 10 decimal places (the float round-half-even tie rule is immaterial to
the claims, which never sit on a 1e-10 tie). -/
def round10 (q : ℚ) : ℚ := (round (q * 10 ^ 10) : ℤ) / 10 ^ 10

/-- `Series.round(10)` cell-wise: NaN stays NaN. -/
def roundCell : Cell → Cell
  | Cell.num q => Cell.num (round10 q)
  | c => c

/-- The `classify` function (lines 120-127): NaN maps to None, then the
two threshold bands; everything else maps to None. -/
def classify (v : Option ℚ) : Option String :=
  match v with
  | none => none
  | some x =>
    if -70 ≤ x ∧ x ≤ -10 then some "YES"
    else if -200 ≤ x ∧ x < -70 then some "NO"
    else none

/-- `classify` applied to a dBm column cell (`pd.isna` is true for `na`
and for any non-numeric cell never produced by the pipeline). -/
def classifyCell : Cell → Cell
  | Cell.num q =>
    match classify (some q) with
    | some s => Cell.str s
    | none => Cell.na
  | _ => Cell.na

/-- Add the `LatBin`/`LonBin` key columns (lines 113-116):
`t["LatBin"] = t[latC].round(10)` and likewise for longitude. -/
def binCols (t : Table) (latC lonC : Col) : Table :=
  (t.setColValues "LatBin" ((t.getColD latC).map roundCell)).setColValues
    "LonBin" ((t.getColD lonC).map roundCell)

/-- The (key, reading) pairs behind
`cov_raw.set_index(["LatBin","LonBin"])["RSSI / RSCP (dBm)"].to_dict()`
(line 117), in row order. -/
def covMapOf (cov1 : Table) : List ((Cell × Cell) × Cell) :=
  ((cov1.getColD "LatBin").zip (cov1.getColD "LonBin")).zip
    (cov1.getColD "RSSI / RSCP (dBm)")

/-- Python-dict lookup over the insertion sequence: the LAST binding of a
key wins, so look the key up in the reversed pair list. -/
def dictGet (l : List ((Cell × Cell) × Cell)) (k : Cell × Cell) : Option Cell :=
  alookup k l.reverse

/-- `cov_map.get((r.LatBin, r.LonBin))` for one row (line 118); a missing
key becomes NaN in the resulting float column. -/
def lookupRow (cm : List ((Cell × Cell) × Cell)) (la lo : Cell) : Cell :=
  (dictGet cm (la, lo)).getD Cell.na

/-- Reference function: the reading of the LAST row of the coverage pair
list whose key equals `k`, if any.  Used to state what the dict lookup
returns. -/
def lastMatch (rows : List ((Cell × Cell) × Cell)) (k : Cell × Cell) : Option Cell :=
  match rows with
  | [] => none
  | r :: rest =>
    match lastMatch rest k with
    | some v => some v
    | none => if r.1 = k then some r.2 else none

/-- The rounded-coordinate row keys of the binned working table, in row
order (the pairs `(r.LatBin, r.LonBin)` seen by `gdf.apply(axis=1)`). -/
def gdfKeys (gdf : Table) : List (Cell × Cell) :=
  ((binCols gdf "Latitude - Functional Location" "Longitude - Functional Location").getColD
      "LatBin").zip
    ((binCols gdf "Latitude - Functional Location" "Longitude - Functional Location").getColD
      "LonBin")

/-- The `dBm` column computed by line 118, row-wise dict lookups. -/
def dbmValsOf (gdf cov_raw : Table) : List Cell :=
  (gdfKeys gdf).map
    (fun p => lookupRow (covMapOf (binCols cov_raw "Latitud" "Longitud")) p.1 p.2)

/-- The join block, lines 113-130: bin both tables, build the coverage
dict, compute the `dBm` column row-wise, derive `Gateway` from it, drop
the bin columns from the working table.  Returns the resulting working
table and the coverage table as it stands afterwards (`cov_raw` is
mutated in place by the bin-column assignments and keeps them). -/
def joinStep (gdf cov_raw : Table) : Table × Table :=
  ((((binCols gdf "Latitude - Functional Location"
        "Longitude - Functional Location").setColValues "dBm"
        (dbmValsOf gdf cov_raw)).setColValues "Gateway"
      (((((binCols gdf "Latitude - Functional Location"
          "Longitude - Functional Location").setColValues "dBm"
          (dbmValsOf gdf cov_raw)).getColD "dBm").map classifyCell))).dropCols
    ["LatBin", "LonBin"],
   binCols cov_raw "Latitud" "Longitud")

/-! ## Upload processing and session seeding (lines 85-133) -/

def geoRename : List (Col × Col) :=
  [("Latitud", "Latitude - Functional Location"),
   ("Longitud", "Longitude - Functional Location")]

/-- Lines 93-101: rename the coordinate columns and set the three
constant work-order fields. -/
def seedGeo (geo_raw : Table) : Table :=
  (((geo_raw.renameCols geoRename).setColScalar
      "Service Account - Work Order" (Cell.str "ANER_Senegal")).setColScalar
      "Billing Account - Work Order" (Cell.str "ANER_Senegal")).setColScalar
      "Work Order Type - Work Order" (Cell.str "Installation")

def geoRequired : List Col := ["Latitud", "Longitud"]

def covRequired : List Col := ["Latitud", "Longitud", "RSSI / RSCP (dBm)"]

/-- The Streamlit session state touched by the processing block. -/
structure SessionState where
  df : Table
  geoDf : Option Table
  covDf : Option Table
  processed : Bool
deriving DecidableEq, Repr

/-- `st.session_state` before any upload: `df` is an empty DataFrame
(line 63), nothing else is set. -/
def initState : SessionState := ⟨⟨[]⟩, none, none, false⟩

/-- The one-shot processing block, lines 85-133, as a state transition.
The order of effects follows the source: the georadar schema check
(line 88) precedes any session write; `geo_df` and `df` are assigned
(lines 92-102) BEFORE the coverage schema check (line 106); `cov_df` is
saved (line 110) before the join mutates `cov_raw`; `st.stop()` after a
failed check simply leaves the state as written so far. -/
def processUpload (geo_raw cov_raw : Table) (s : SessionState) : SessionState :=
  if ¬ (geoRequired.all fun c => geo_raw.hasCol c) then s
  else
    let gdf := seedGeo geo_raw
    let s1 : SessionState := { s with geoDf := some geo_raw, df := gdf }
    if ¬ (covRequired.all fun c => cov_raw.hasCol c) then s1
    else
      let s2 : SessionState := { s1 with covDf := some cov_raw }
      let r := joinStep gdf cov_raw
      { s2 with df := r.1, processed := true }

/-! ## Column projection (lines 142-148 display path, 216-220 export path) -/

/-- The add-missing loop: `for c in template: if c not in df.columns:
df[c] = ""`. -/
def addMissing (schema : List Col) (t : Table) : Table :=
  schema.foldl (fun acc c => if acc.hasCol c then acc else acc.setColScalar c (Cell.str "")) t

/-- The full projection `df[c] = "" for missing; df = df[template]`,
identical on the display and export paths. -/
def projectT (schema : List Col) (t : Table) : Table :=
  (addMissing schema t).select schema

/-! ## Bulk fill (lines 160-182) -/

inductive StoreError where
  | protectedColumn
  | missingDependency
deriving DecidableEq, Repr

/-- Line 162: the columns offered by the bulk-fill selectbox. -/
def editableCols (prot : List Col) (t : Table) : List Col :=
  t.colNames.filter (fun c => decide (c ∉ prot))

/-- The bulk-fill operation (lines 160-182).  The selectbox offers only
columns outside `PROTECTED_COLUMNS` (line 162), so targeting a protected
column is refused with no mutation; the spec error taxonomy names that
refusal `ProtectedColumnError`.  The `Aplicar` handler then mutates only
under the guard `if col_sel and val` (line 179): an unselected column
(modelled as the empty string, the falsy value) or an empty value is a
silent no-op; otherwise the whole column is overwritten (line 180). -/
def bulkFillColumn (prot : List Col) (col val : String) (t : Table) :
    Except StoreError Table :=
  if col ∈ prot then Except.error StoreError.protectedColumn
  else if col ≠ "" ∧ val ≠ "" then Except.ok (t.setColScalar col (Cell.str val))
  else Except.ok t

/-! ## Conditional child-location fill (lines 165-181) -/

def parentCol : Col := "Name - Parent Functional Location"

def childCol : Col := "Name - Child Functional Location"

/-- Python truthiness of a cell drawn from a column (`if par:`). -/
def Cell.truthy : Cell → Bool
  | Cell.str s => decide (s ≠ "")
  | Cell.num q => decide (q ≠ 0)
  | Cell.time _ => true
  | Cell.na => false

/-- Line 166-167: `parents = col.dropna().unique(); par = parents[0] if
len(parents) else None`.  `unique` keeps first occurrences, so the first
element of the deduplicated list is the first non-NaN value. -/
def firstParent (t : Table) : Option Cell :=
  ((t.getColD parentCol).filter (fun c => decide (c ≠ Cell.na))).head?

/-- Lines 168-172: the child options offered, `PARENT_CHILD_MAP[par]`,
available only when `par` is truthy and is a key of the map (a non-string
cell never equals a string key). -/
def childOptions (pcMap : List (String × List String)) (t : Table) :
    Option (List String) :=
  match firstParent t with
  | none => none
  | some c =>
    if c.truthy then
      match c with
      | Cell.str s => alookup s pcMap
      | _ => none
    else none

/-- The conditional child-location bulk fill, lines 165-181.  When no
valid parent resolves, the branch warns and sets `val = ""`, so the
`Aplicar` guard performs no mutation; the spec names this failure
`MissingDependencyError`.  Otherwise the operator picks one of the
offered children (`pick`) and the ordinary bulk fill runs. -/
def conditionalChildFill (pcMap : List (String × List String))
    (pick : List String → String) (prot : List Col) (t : Table) :
    Except StoreError Table :=
  match childOptions pcMap t with
  | some opts => bulkFillColumn prot childCol (pick opts) t
  | none => Except.error StoreError.missingDependency

/-! ## Temporal scheduler (lines 191-211) -/

def fullCols : List Col :=
  ["Promised window From - Work Order",
   "Promised window To - Work Order",
   "StartTime - Bookable Resource Booking",
   "EndTime - Bookable Resource Booking"]

def timeOnlyCols : List Col :=
  ["Time window From - Work Order",
   "Time window To - Work Order"]

/-- Line 193: `incs = [start_dt + timedelta(minutes=27*i) for i in
range(len(df))]`, with datetimes in whole seconds (27 min = 1620 s). -/
def incsOf (start : ℤ) (n : ℕ) : List ℤ :=
  (List.range n).map (fun i : ℕ => start + 1620 * (i : ℤ))

def pad2 (n : ℕ) : String := if n < 10 then "0" ++ toString n else toString n

/-- `d.time().strftime("%H:%M:%S")` for a datetime given in seconds. -/
def fmtHMS (t : ℤ) : String :=
  let s := (t % 86400).toNat
  pad2 (s / 3600) ++ ":" ++ pad2 (s % 3600 / 60) ++ ":" ++ pad2 (s % 60)

/-- `if c in df.columns: df[c] = vs` (lines 204-209): absent columns are
skipped silently, never created. -/
def setIfPresent (t : Table) (c : Col) (vs : List Cell) : Table :=
  if t.hasCol c then t.setColValues c vs else t

/-- The `Generar 27 min` handler, lines 191-211: compute the increment
list once from the row count of the current table, then write it into
every present full-timestamp column and its HH:MM:SS rendering into every
present time-only column. -/
def generate27 (start : ℤ) (t : Table) : Table :=
  timeOnlyCols.foldl
    (fun acc c =>
      setIfPresent acc c ((incsOf start t.nrows).map (fun x => Cell.str (fmtHMS x))))
    (fullCols.foldl
      (fun acc c => setIfPresent acc c ((incsOf start t.nrows).map Cell.time)) t)

/-! ## Concrete input tables used by counterexamples and witnesses -/

/-- One installation point at (14, -17). -/
def tC2geo : Table :=
  ⟨[("Latitude - Functional Location", [Cell.num 14]),
    ("Longitude - Functional Location", [Cell.num (-17)])]⟩

/-- Two coverage samples at the same coordinates with different readings. -/
def tC2cov : Table :=
  ⟨[("Latitud", [Cell.num 14, Cell.num 14]),
    ("Longitud", [Cell.num (-17), Cell.num (-17)]),
    ("RSSI / RSCP (dBm)", [Cell.num (-65), Cell.num (-80)])]⟩

/-- A well-formed georadar upload: both coordinate columns present. -/
def tGeoOk : Table :=
  ⟨[("Latitud", [Cell.num 14]), ("Longitud", [Cell.num (-17)])]⟩

/-- A coverage upload missing the `RSSI / RSCP (dBm)` column. -/
def tCovBad : Table :=
  ⟨[("Latitud", [Cell.num 14]), ("Longitud", [Cell.num (-17)])]⟩

/-- A one-row table with a single non-protected column holding "x". -/
def tC5 : Table := ⟨[("A", [Cell.str "x"])]⟩

/-- A table for the witness of the amended bulk-fill claim. -/
def tC5w : Table := ⟨[("A", [Cell.str "x", Cell.str "y"])]⟩

/-- Parent column whose first non-NaN value is the empty string while a
non-empty parent name appears further down. -/
def tC6 : Table :=
  ⟨[(parentCol, [Cell.str "", Cell.str "Dakar"]),
    (childCol, [Cell.str "", Cell.str ""])]⟩

/-- A table whose parent column starts with a valid parent name. -/
def tC6w : Table :=
  ⟨[(parentCol, [Cell.str "Dakar", Cell.na]),
    (childCol, [Cell.str "", Cell.str ""])]⟩

def pcMapC6 : List (String × List String) := [("Dakar", ["Pikine", "Guediawaye"])]

/-- A two-row table with one full-timestamp column, one time-only column,
and an unrelated column; the other scheduler targets are absent. -/
def tC7 : Table :=
  ⟨[("StartTime - Bookable Resource Booking", [Cell.na, Cell.na]),
    ("Time window From - Work Order", [Cell.na, Cell.na]),
    ("Site", [Cell.str "a", Cell.str "b"])]⟩

/-- An installation table for the join frame-condition claim. -/
def tC8geo : Table :=
  ⟨[("Latitude - Functional Location", [Cell.num 1]),
    ("Longitude - Functional Location", [Cell.num 2])]⟩

/-- A coverage table for the join frame-condition claim. -/
def tC8cov : Table :=
  ⟨[("Latitud", [Cell.num 1]), ("Longitud", [Cell.num 2]),
    ("RSSI / RSCP (dBm)", [Cell.num (-65)])]⟩

/-- A one-row table with a single column holding "y". -/
def tC10 : Table := ⟨[("B", [Cell.str "y"])]⟩

/-- A one-row, one-column table for the projection witness. -/
def tC4 : Table := ⟨[("A", [Cell.str "x"])]⟩

instance {ε α : Type} [DecidableEq ε] [DecidableEq α] : DecidableEq (Except ε α) :=
  fun a b => by
    cases a with
    | error e =>
      cases b with
      | error f =>
        by_cases h : e = f
        · exact isTrue (by rw [h])
        · exact isFalse (fun hh => h (by injection hh))
      | ok y => exact isFalse (fun hh => Except.noConfusion hh)
    | ok x =>
      cases b with
      | error f => exact isFalse (fun hh => Except.noConfusion hh)
      | ok y =>
        by_cases h : x = y
        · exact isTrue (by rw [h])
        · exact isFalse (fun hh => h (by injection hh))

/-! ## Helper lemmas about the table primitives -/

theorem alookup_append_some {κ α : Type} [DecidableEq κ] (c : κ) (l₁ l₂ : List (κ × α))
    (v : α) (h : alookup c l₁ = some v) : alookup c (l₁ ++ l₂) = some v := by
  induction l₁ with
  | nil => simp [alookup] at h
  | cons p rest ih =>
    obtain ⟨k, w⟩ := p
    by_cases hk : k = c
    · simp [alookup, hk] at h ⊢; exact h
    · simp [alookup, hk] at h ⊢; exact ih h

theorem alookup_append_none {κ α : Type} [DecidableEq κ] (c : κ) (l₁ l₂ : List (κ × α))
    (h : alookup c l₁ = none) : alookup c (l₁ ++ l₂) = alookup c l₂ := by
  induction l₁ with
  | nil => simp
  | cons p rest ih =>
    obtain ⟨k, w⟩ := p
    by_cases hk : k = c
    · simp [alookup, hk] at h
    · simp [alookup, hk] at h ⊢; exact ih h

theorem alookup_map_keys {κ α : Type} [DecidableEq κ] (f : κ → α) (l : List κ) {c : κ}
    (h : c ∈ l) : alookup c (l.map fun x => (x, f x)) = some (f c) := by
  induction l with
  | nil => simp at h
  | cons a rest ih =>
    by_cases ha : a = c
    · subst ha; simp [alookup]
    · rcases List.mem_cons.mp h with h1 | h1
      · exact absurd h1.symm ha
      · simp [alookup, ha]; exact ih h1

theorem alookup_map_update {κ α : Type} [DecidableEq κ] (c : κ) (vs : α)
    (l : List (κ × α)) (h : (alookup c l).isSome = true) :
    alookup c (l.map fun p => if p.1 = c then (c, vs) else p) = some vs := by
  induction l with
  | nil => simp [alookup] at h
  | cons p rest ih =>
    obtain ⟨k, w⟩ := p
    simp only [List.map_cons]
    by_cases hk : k = c
    · have e : (if ((k, w) : κ × α).1 = c then ((c, vs) : κ × α) else (k, w)) = (c, vs) :=
        if_pos hk
      rw [e]; simp [alookup]
    · have e : (if ((k, w) : κ × α).1 = c then ((c, vs) : κ × α) else (k, w)) = (k, w) :=
        if_neg hk
      rw [e]
      simp only [alookup, hk, if_false] at h ⊢
      exact ih h

theorem alookup_map_update_ne {κ α : Type} [DecidableEq κ] {c d : κ} (vs : α)
    (l : List (κ × α)) (h : d ≠ c) :
    alookup d (l.map fun p => if p.1 = c then (c, vs) else p) = alookup d l := by
  induction l with
  | nil => simp
  | cons p rest ih =>
    obtain ⟨k, w⟩ := p
    simp only [List.map_cons]
    by_cases hk : k = c
    · have e : (if ((k, w) : κ × α).1 = c then ((c, vs) : κ × α) else (k, w)) = (c, vs) :=
        if_pos hk
      rw [e]
      simp only [alookup]
      rw [if_neg (Ne.symm h), if_neg (hk ▸ Ne.symm h)]
      exact ih
    · have e : (if ((k, w) : κ × α).1 = c then ((c, vs) : κ × α) else (k, w)) = (k, w) :=
        if_neg hk
      rw [e]
      simp only [alookup]
      by_cases hd : k = d
      · rw [if_pos hd, if_pos hd]
      · rw [if_neg hd, if_neg hd]
        exact ih

theorem getCol_setColValues_self (t : Table) (c : Col) (vs : List Cell) :
    (t.setColValues c vs).getCol c = some vs := by
  unfold Table.setColValues
  by_cases hc : t.hasCol c
  · simp only [hc, if_true, Table.getCol]
    exact alookup_map_update c vs t.cols hc
  · simp only [hc, if_false, Bool.false_eq_true, Table.getCol]
    rw [alookup_append_none]
    · simp [alookup]
    · simp only [Table.hasCol, Table.getCol, Option.isSome] at hc
      split at hc
      · simp_all
      · assumption

theorem getCol_setColValues_ne (t : Table) (c : Col) (vs : List Cell) (d : Col)
    (h : d ≠ c) : (t.setColValues c vs).getCol d = t.getCol d := by
  unfold Table.setColValues
  by_cases hc : t.hasCol c
  · simp only [hc, if_true, Table.getCol]
    exact alookup_map_update_ne vs t.cols h
  · simp only [hc, if_false, Bool.false_eq_true, Table.getCol]
    cases hv : alookup d t.cols with
    | some v => exact alookup_append_some d _ _ v hv
    | none => rw [alookup_append_none d _ _ hv]; simp [alookup, Ne.symm h]

theorem getCol_setColScalar_self (t : Table) (c : Col) (v : Cell) :
    (t.setColScalar c v).getCol c = some (List.replicate t.nrows v) :=
  getCol_setColValues_self t c _

theorem getCol_setColScalar_ne (t : Table) (c : Col) (v : Cell) (d : Col) (h : d ≠ c) :
    (t.setColScalar c v).getCol d = t.getCol d :=
  getCol_setColValues_ne t c _ d h

theorem hasCol_setColValues_self (t : Table) (c : Col) (vs : List Cell) :
    (t.setColValues c vs).hasCol c = true := by
  simp [Table.hasCol, getCol_setColValues_self]

theorem hasCol_setColValues_ne (t : Table) (c : Col) (vs : List Cell) (d : Col)
    (h : d ≠ c) : (t.setColValues c vs).hasCol d = t.hasCol d := by
  simp [Table.hasCol, getCol_setColValues_ne t c vs d h]

theorem nrows_setColValues (t : Table) (c : Col) (vs : List Cell)
    (h : vs.length = t.nrows) : (t.setColValues c vs).nrows = t.nrows := by
  unfold Table.setColValues
  by_cases hc : t.hasCol c
  · simp only [hc, if_true]
    cases e : t.cols with
    | nil => simp [Table.nrows, e]
    | cons p rest =>
      obtain ⟨k, ws⟩ := p
      simp only [Table.nrows, e, List.map_cons]
      by_cases hk : k = c
      · simp only [hk, if_true]
        rw [h]; simp [Table.nrows, e]
      · simp [hk, Table.nrows]
  · simp only [hc, if_false, Bool.false_eq_true]
    cases e : t.cols with
    | nil =>
      simp only [Table.nrows, e, List.nil_append]
      rw [h]; simp [Table.nrows, e]
    | cons p rest =>
      obtain ⟨k, ws⟩ := p
      simp [Table.nrows, e]

theorem nrows_setColScalar (t : Table) (c : Col) (v : Cell) :
    (t.setColScalar c v).nrows = t.nrows :=
  nrows_setColValues t c _ (List.length_replicate _ _)

theorem nrows_renameCols (t : Table) (m : List (Col × Col)) :
    (t.renameCols m).nrows = t.nrows := by
  unfold Table.renameCols
  cases e : t.cols with
  | nil => simp [Table.nrows, e]
  | cons p rest =>
    obtain ⟨k, ws⟩ := p
    simp only [Table.nrows, e, List.map_cons]
    cases alookup k m <;> simp [Table.nrows]

/-! ## C1: the feasibility classification thresholds -/

/-- C1: for every signal-strength value `v`, the classification is YES
exactly when `-70 ≤ v ≤ -10`, NO exactly when `-200 ≤ v < -70`, and
UNKNOWN (`None` in the code) in every other case, including an absent
value. -/
theorem c1_classification (v : Option ℚ) :
    (classify v = some "YES" ↔ ∃ x, v = some x ∧ -70 ≤ x ∧ x ≤ -10) ∧
    (classify v = some "NO" ↔ ∃ x, v = some x ∧ -200 ≤ x ∧ x < -70) ∧
    (classify v = none ↔ v = none ∨ ∃ x, v = some x ∧ (x < -200 ∨ -10 < x)) := by
  cases v with
  | none => simp [classify]
  | some x =>
    refine ⟨?_, ?_, ?_⟩
    · constructor
      · intro h
        by_cases h1 : -70 ≤ x ∧ x ≤ -10
        · exact ⟨x, rfl, h1.1, h1.2⟩
        · by_cases h2 : -200 ≤ x ∧ x < -70
          · simp [classify, h1, h2] at h
          · simp [classify, h1, h2] at h
      · rintro ⟨y, hy, hb1, hb2⟩
        injection hy with hxy
        subst hxy
        simp [classify, hb1, hb2]
    · constructor
      · intro h
        by_cases h1 : -70 ≤ x ∧ x ≤ -10
        · simp [classify, h1] at h
        · by_cases h2 : -200 ≤ x ∧ x < -70
          · exact ⟨x, rfl, h2.1, h2.2⟩
          · simp [classify, h1, h2] at h
      · rintro ⟨y, hy, hb1, hb2⟩
        injection hy with hxy
        subst hxy
        have h1 : ¬(-70 ≤ x ∧ x ≤ -10) := by rintro ⟨a, b⟩; linarith
        simp [classify, h1, hb1, hb2]
    · constructor
      · intro h
        by_cases h1 : -70 ≤ x ∧ x ≤ -10
        · simp [classify, h1] at h
        · by_cases h2 : -200 ≤ x ∧ x < -70
          · simp [classify, h1, h2] at h
          · push_neg at h1 h2
            right
            refine ⟨x, rfl, ?_⟩
            by_cases hx : x < -200
            · exact Or.inl hx
            · push_neg at hx
              exact Or.inr (h1 (h2 hx))
      · rintro (h | ⟨y, hy, hband⟩)
        · exact absurd h (by simp)
        · injection hy with hxy
          subst hxy
          have h1 : ¬(-70 ≤ x ∧ x ≤ -10) := by
            rcases hband with h | h <;> rintro ⟨a, b⟩ <;> linarith
          have h2 : ¬(-200 ≤ x ∧ x < -70) := by
            rcases hband with h | h <;> rintro ⟨a, b⟩ <;> linarith
          simp [classify, h1, h2]

/-! ## C9: the constant work-order fields set at seeding -/

/-- C9: seeding the store from the installation input unconditionally
sets, in every record regardless of the input, the service account and
billing account to `ANER_Senegal` and the work-order type to
`Installation`. -/
theorem c9_seed_defaults (g : Table) :
    (seedGeo g).getCol "Service Account - Work Order"
      = some (List.replicate g.nrows (Cell.str "ANER_Senegal")) ∧
    (seedGeo g).getCol "Billing Account - Work Order"
      = some (List.replicate g.nrows (Cell.str "ANER_Senegal")) ∧
    (seedGeo g).getCol "Work Order Type - Work Order"
      = some (List.replicate g.nrows (Cell.str "Installation")) ∧
    (seedGeo g).nrows = g.nrows := by
  unfold seedGeo
  refine ⟨?_, ?_, ?_, ?_⟩
  · rw [getCol_setColScalar_ne _ _ _ _ (by decide),
      getCol_setColScalar_ne _ _ _ _ (by decide), getCol_setColScalar_self,
      nrows_renameCols]
  · rw [getCol_setColScalar_ne _ _ _ _ (by decide), getCol_setColScalar_self,
      nrows_setColScalar, nrows_renameCols]
  · rw [getCol_setColScalar_self, nrows_setColScalar, nrows_setColScalar,
      nrows_renameCols]
  · rw [nrows_setColScalar, nrows_setColScalar, nrows_setColScalar,
      nrows_renameCols]

theorem hasCol_setColScalar_self (t : Table) (c : Col) (v : Cell) :
    (t.setColScalar c v).hasCol c = true :=
  hasCol_setColValues_self t c _

theorem hasCol_setColScalar_ne (t : Table) (c : Col) (v : Cell) (d : Col) (h : d ≠ c) :
    (t.setColScalar c v).hasCol d = t.hasCol d :=
  hasCol_setColValues_ne t c _ d h

/-! ## Projection lemmas -/

theorem addMissing_nil (t : Table) : addMissing [] t = t := rfl

theorem addMissing_cons (a : Col) (rest : List Col) (t : Table) :
    addMissing (a :: rest) t
      = addMissing rest (if t.hasCol a then t else t.setColScalar a (Cell.str "")) := by
  unfold addMissing
  simp only [List.foldl_cons]

theorem hasCol_addMissing_mono (schema : List Col) :
    ∀ (t : Table) (c : Col), t.hasCol c = true → (addMissing schema t).hasCol c = true := by
  induction schema with
  | nil => intro t c h; exact h
  | cons a rest ih =>
    intro t c h
    rw [addMissing_cons]
    by_cases ha : t.hasCol a
    · simp only [ha, if_true]; exact ih t c h
    · simp only [ha, if_false, Bool.false_eq_true]
      apply ih
      by_cases hca : c = a
      · subst hca; rw [h] at ha; exact absurd rfl ha
      · rw [hasCol_setColScalar_ne t a _ c hca]; exact h

theorem getCol_addMissing_present (schema : List Col) :
    ∀ (t : Table) (c : Col), t.hasCol c = true →
      (addMissing schema t).getCol c = t.getCol c := by
  induction schema with
  | nil => intro t c _; rfl
  | cons a rest ih =>
    intro t c h
    rw [addMissing_cons]
    by_cases ha : t.hasCol a
    · simp only [ha, if_true]; exact ih t c h
    · simp only [ha, if_false, Bool.false_eq_true]
      by_cases hca : c = a
      · subst hca; rw [h] at ha; exact absurd rfl ha
      · rw [ih _ c (by rw [hasCol_setColScalar_ne t a _ c hca]; exact h),
          getCol_setColScalar_ne t a _ c hca]

theorem nrows_addMissing (schema : List Col) :
    ∀ t : Table, (addMissing schema t).nrows = t.nrows := by
  induction schema with
  | nil => intro t; rfl
  | cons a rest ih =>
    intro t
    rw [addMissing_cons]
    by_cases ha : t.hasCol a
    · simp only [ha, if_true]; exact ih t
    · simp only [ha, if_false, Bool.false_eq_true]
      rw [ih _, nrows_setColScalar]

theorem getCol_addMissing_absent (schema : List Col) :
    ∀ (t : Table) (c : Col), c ∈ schema → t.hasCol c = false →
      (addMissing schema t).getCol c = some (List.replicate t.nrows (Cell.str "")) := by
  induction schema with
  | nil => intro t c h; simp at h
  | cons a rest ih =>
    intro t c hc hab
    rw [addMissing_cons]
    by_cases hca : c = a
    · subst hca
      simp only [hab, if_false, Bool.false_eq_true]
      rw [getCol_addMissing_present rest _ c (hasCol_setColScalar_self t c _),
        getCol_setColScalar_self]
    · rcases List.mem_cons.mp hc with h1 | h1
      · exact absurd h1 hca
      · by_cases ha : t.hasCol a
        · simp only [ha, if_true]; exact ih t c h1 hab
        · simp only [ha, if_false, Bool.false_eq_true]
          rw [ih _ c h1 (by rw [hasCol_setColScalar_ne t a _ c hca]; exact hab),
            nrows_setColScalar]

theorem addMissing_allPresent (schema : List Col) :
    ∀ t : Table, (∀ c ∈ schema, t.hasCol c = true) → addMissing schema t = t := by
  induction schema with
  | nil => intro t _; rfl
  | cons a rest ih =>
    intro t h
    rw [addMissing_cons]
    have ha : t.hasCol a = true := h a (List.mem_cons_self a rest)
    simp only [ha, if_true]
    exact ih t (fun c hc => h c (List.mem_cons_of_mem a hc))

theorem colNames_select (t : Table) (cs : List Col) : (t.select cs).colNames = cs := by
  simp only [Table.select, Table.colNames, List.map_map]
  have e : (Prod.fst ∘ fun c => (c, t.getColD c)) = fun c : Col => c := rfl
  rw [e]
  exact List.map_id cs

theorem getCol_select_mem (t : Table) (cs : List Col) {c : Col} (h : c ∈ cs) :
    (t.select cs).getCol c = some (t.getColD c) :=
  alookup_map_keys (fun c => t.getColD c) cs h

/-! ## C4: the display/export projection -/

/-- C4: `project(schema)` returns a table whose column list is exactly the
schema (schema columns missing from the input are filled with the empty
string, present columns keep their values, non-schema columns are
dropped), and the projection is idempotent. -/
theorem c4_projection (schema : List Col) (t : Table) :
    (projectT schema t).colNames = schema ∧
    projectT schema (projectT schema t) = projectT schema t ∧
    (∀ c ∈ schema, t.hasCol c = true → (projectT schema t).getCol c = t.getCol c) ∧
    (∀ c ∈ schema, t.hasCol c = false →
      (projectT schema t).getCol c = some (List.replicate t.nrows (Cell.str ""))) := by
  have hsel : ∀ c ∈ schema,
      (projectT schema t).getCol c = some ((addMissing schema t).getColD c) := by
    intro c hc
    exact getCol_select_mem (addMissing schema t) schema hc
  refine ⟨colNames_select _ _, ?_, ?_, ?_⟩
  · have hall : ∀ c ∈ schema, (projectT schema t).hasCol c = true := by
      intro c hc
      unfold Table.hasCol
      rw [hsel c hc]
      rfl
    have e1 : addMissing schema (projectT schema t) = projectT schema t :=
      addMissing_allPresent schema _ hall
    show (addMissing schema (projectT schema t)).select schema = projectT schema t
    rw [e1]
    show Table.mk (schema.map fun c => (c, (projectT schema t).getColD c))
      = projectT schema t
    have e2 : ∀ c ∈ schema,
        (projectT schema t).getColD c = (addMissing schema t).getColD c := by
      intro c hc
      unfold Table.getColD
      rw [hsel c hc]
      rfl
    have e3 : (schema.map fun c => (c, (projectT schema t).getColD c))
        = schema.map fun c => (c, (addMissing schema t).getColD c) := by
      apply List.map_congr_left
      intro c hc
      rw [e2 c hc]
    rw [e3]
    rfl
  · intro c hc hp
    rw [hsel c hc]
    unfold Table.getColD
    rw [getCol_addMissing_present schema t c hp]
    have hp2 : (t.getCol c).isSome = true := hp
    obtain ⟨vs, hv⟩ := Option.isSome_iff_exists.mp hp2
    rw [hv]
    rfl
  · intro c hc hab
    rw [hsel c hc]
    unfold Table.getColD
    rw [getCol_addMissing_absent schema t c hc hab]
    rfl

/-- C4 witness: projecting a one-column table onto the schema [A, B]
fills the absent column B with the empty string. -/
theorem c4_projection_witness :
    (projectT ["A", "B"] tC4).getCol "B" = some [Cell.str ""] := by
  have h := (c4_projection ["A", "B"] tC4).2.2.2 "B" (by decide) (by decide)
  exact h.trans (by rfl)

/-! ## C5 and C10: the bulk-fill handler -/

/-- C5 counterexample: on the non-protected column A, bulk fill with the
empty-string value leaves the table unchanged instead of overwriting the
column uniformly with the given value, refuting the claim that a bulk
fill on any non-protected column always overwrites every row. -/
theorem c5_counterexample :
    ("A" : Col) ∉ (["Protected"] : List Col) ∧
    bulkFillColumn ["Protected"] "A" "" tC5 = Except.ok tC5 ∧
    tC5.getCol "A" = some [Cell.str "x"] ∧
    tC5.getCol "A" ≠ some [Cell.str ""] := by decide

/-- C5 (amended): bulk fill on a protected column fails with
`ProtectedColumnError` and produces no table (the store is unchanged);
on a non-protected column with a column selected and a NON-EMPTY value it
overwrites that column uniformly in every row; with an empty value (or no
selected column) it returns the table unchanged. -/
theorem c5_bulk_fill (prot : List Col) (col val : String) (t : Table) :
    (col ∈ prot → bulkFillColumn prot col val t
      = Except.error StoreError.protectedColumn) ∧
    (col ∉ prot → col ≠ "" → val ≠ "" →
      bulkFillColumn prot col val t = Except.ok (t.setColScalar col (Cell.str val)) ∧
      (t.setColScalar col (Cell.str val)).getCol col
        = some (List.replicate t.nrows (Cell.str val))) ∧
    (col ∉ prot → (col = "" ∨ val = "") →
      bulkFillColumn prot col val t = Except.ok t) := by
  refine ⟨?_, ?_, ?_⟩
  · intro h
    simp [bulkFillColumn, h]
  · intro h hc hv
    exact ⟨by simp [bulkFillColumn, h, hc, hv], getCol_setColScalar_self t col _⟩
  · intro h hcv
    rcases hcv with hc | hv
    · subst hc; simp [bulkFillColumn, h]
    · subst hv; simp [bulkFillColumn, h]

/-- C5 witness: filling the non-protected column A of a two-row table
with "v" overwrites both rows. -/
theorem c5_bulk_fill_witness :
    bulkFillColumn ["Protected"] "A" "v" tC5w
      = Except.ok (tC5w.setColScalar "A" (Cell.str "v")) ∧
    (tC5w.setColScalar "A" (Cell.str "v")).getCol "A"
      = some [Cell.str "v", Cell.str "v"] := by
  have h := (c5_bulk_fill ["Protected"] "A" "v" tC5w).2.1 (by decide) (by decide) (by decide)
  exact ⟨h.1, h.2.trans (by rfl)⟩

/-- C10: bulk fill with an empty-string value, or with no column selected
(the falsy selection, modelled as the empty string), raises no error and
leaves the table unchanged, even on a non-protected column. -/
theorem c10_empty_noop (prot : List Col) (col val : String) (t : Table)
    (hp : col ∉ prot) (h : col = "" ∨ val = "") :
    bulkFillColumn prot col val t = Except.ok t := by
  rcases h with h | h
  · subst h; simp [bulkFillColumn, hp]
  · subst h; simp [bulkFillColumn, hp]

/-- C10 witness: an empty value on the non-protected column B is a no-op. -/
theorem c10_empty_noop_witness :
    bulkFillColumn ["Protected"] "B" "" tC10 = Except.ok tC10 :=
  c10_empty_noop ["Protected"] "B" "" tC10 (by decide) (Or.inr rfl)

/-! ## C6: the conditional child-location fill -/

theorem head_filter_eq_find {α : Type} (p : α → Bool) (l : List α) :
    (l.filter p).head? = l.find? p := by
  induction l with
  | nil => rfl
  | cons a rest ih =>
    by_cases ha : p a
    · simp [List.filter_cons, List.find?_cons, ha]
    · simp [List.filter_cons, List.find?_cons, ha, ih]

/-- C6 counterexample: the parent column holds the empty string in row 0
and the valid parent name "Dakar" in row 1; the claimed resolution rule
(first NON-EMPTY value) would resolve "Dakar" and succeed, but the code
takes the first non-NaN value, the empty string, and fails with no
mutation. -/
theorem c6_counterexample :
    conditionalChildFill pcMapC6 (fun l => l.headD "") [] tC6
      = Except.error StoreError.missingDependency ∧
    Cell.str "Dakar" ∈ tC6.getColD parentCol ∧
    ("Dakar" : String) ≠ "" ∧
    alookup "Dakar" pcMapC6 = some ["Pikine", "Guediawaye"] := by decide

/-- C6 (amended): the parent is resolved as the FIRST NON-NaN value of the
dependent column (not the first non-empty one); the operation fails with
`MissingDependencyError` — performing no mutation — exactly when no child
options resolve, i.e. when that value is missing, empty/falsy, or not a
key of the parent-child map; otherwise the picked child value is
bulk-filled into the child column. -/
theorem c6_conditional_fill (pcMap : List (String × List String))
    (pick : List String → String) (prot : List Col) (t : Table) :
    firstParent t = (t.getColD parentCol).find? (fun c => decide (c ≠ Cell.na)) ∧
    (conditionalChildFill pcMap pick prot t = Except.error StoreError.missingDependency
      ↔ childOptions pcMap t = none) ∧
    (∀ (s : String) (opts : List String), firstParent t = some (Cell.str s) → s ≠ "" →
      alookup s pcMap = some opts →
      conditionalChildFill pcMap pick prot t
        = bulkFillColumn prot childCol (pick opts) t) := by
  refine ⟨?_, ?_, ?_⟩
  · unfold firstParent
    exact head_filter_eq_find _ _
  · constructor
    · intro h
      cases ho : childOptions pcMap t with
      | none => rfl
      | some opts =>
        unfold conditionalChildFill at h
        rw [ho] at h
        change bulkFillColumn prot childCol (pick opts) t
          = Except.error StoreError.missingDependency at h
        unfold bulkFillColumn at h
        by_cases h1 : childCol ∈ prot
        · rw [if_pos h1] at h
          exact absurd h (by decide)
        · rw [if_neg h1] at h
          by_cases h2 : childCol ≠ "" ∧ pick opts ≠ ""
          · rw [if_pos h2] at h
            exact Except.noConfusion h
          · rw [if_neg h2] at h
            exact Except.noConfusion h
    · intro h
      unfold conditionalChildFill
      rw [h]
  · intro s opts hfp hs hlk
    unfold conditionalChildFill childOptions
    rw [hfp]
    have htr : (Cell.str s).truthy = true := by simp [Cell.truthy, hs]
    simp only [htr, if_true]
    rw [hlk]

/-- C6 witness: with "Dakar" as the first non-NaN parent value and
"Dakar" a key of the parent-child map, the conditional fill performs the
ordinary bulk fill with the picked child. -/
theorem c6_conditional_fill_witness :
    conditionalChildFill pcMapC6 (fun l => l.headD "") [] tC6w
      = bulkFillColumn [] childCol "Pikine" tC6w := by
  have h := (c6_conditional_fill pcMapC6 (fun l => l.headD "") [] tC6w).2.2
    "Dakar" ["Pikine", "Guediawaye"] (by decide) (by decide) (by decide)
  exact h

/-! ## C7: the 27-minute scheduler -/

theorem getCol_setIfPresent_self (t : Table) (c : Col) (vs : List Cell)
    (h : t.hasCol c = true) : (setIfPresent t c vs).getCol c = some vs := by
  unfold setIfPresent
  simp only [h, if_true]
  exact getCol_setColValues_self t c vs

theorem getCol_setIfPresent_ne (t : Table) (c : Col) (vs : List Cell) (d : Col)
    (h : d ≠ c) : (setIfPresent t c vs).getCol d = t.getCol d := by
  unfold setIfPresent
  by_cases hc : t.hasCol c
  · simp only [hc, if_true]
    exact getCol_setColValues_ne t c vs d h
  · simp [hc]

theorem hasCol_setIfPresent (t : Table) (c : Col) (vs : List Cell) (d : Col) :
    (setIfPresent t c vs).hasCol d = t.hasCol d := by
  unfold setIfPresent
  by_cases hc : t.hasCol c
  · simp only [hc, if_true]
    by_cases hd : d = c
    · subst hd; rw [hasCol_setColValues_self t d vs, hc]
    · exact hasCol_setColValues_ne t c vs d hd
  · simp [hc]

theorem foldSet_cons (a : Col) (rest : List Col) (vs : List Cell) (t : Table) :
    (a :: rest).foldl (fun acc x => setIfPresent acc x vs) t
      = rest.foldl (fun acc x => setIfPresent acc x vs) (setIfPresent t a vs) := by
  simp only [List.foldl_cons]

theorem getCol_foldSet_not_mem (cs : List Col) (vs : List Cell) (c : Col) :
    ∀ t : Table, c ∉ cs →
      (cs.foldl (fun acc x => setIfPresent acc x vs) t).getCol c = t.getCol c := by
  induction cs with
  | nil => intro t _; rfl
  | cons a rest ih =>
    intro t hc
    rw [foldSet_cons]
    have hca : c ≠ a := fun h => hc (h ▸ List.mem_cons_self a rest)
    rw [ih _ (fun h => hc (List.mem_cons_of_mem a h)),
      getCol_setIfPresent_ne t a vs c hca]

theorem hasCol_foldSet (cs : List Col) (vs : List Cell) (c : Col) :
    ∀ t : Table,
      (cs.foldl (fun acc x => setIfPresent acc x vs) t).hasCol c = t.hasCol c := by
  induction cs with
  | nil => intro t; rfl
  | cons a rest ih =>
    intro t
    rw [foldSet_cons, ih _, hasCol_setIfPresent]

theorem getCol_foldSet_mem (cs : List Col) (vs : List Cell) (c : Col) :
    ∀ t : Table, cs.Nodup → c ∈ cs → t.hasCol c = true →
      (cs.foldl (fun acc x => setIfPresent acc x vs) t).getCol c = some vs := by
  induction cs with
  | nil => intro t _ hc; simp at hc
  | cons a rest ih =>
    intro t hnd hc hp
    rw [foldSet_cons]
    by_cases hca : c = a
    · subst hca
      have hnotin : c ∉ rest := (List.nodup_cons.mp hnd).1
      rw [getCol_foldSet_not_mem rest vs c _ hnotin,
        getCol_setIfPresent_self t c vs hp]
    · have h1 : c ∈ rest := (List.mem_cons.mp hc).resolve_left hca
      exact ih _ (List.nodup_cons.mp hnd).2 h1
        (by rw [hasCol_setIfPresent]; exact hp)

theorem fullCols_nodup : fullCols.Nodup := by decide

theorem timeOnlyCols_nodup : timeOnlyCols.Nodup := by decide

theorem full_not_timeOnly : ∀ c ∈ fullCols, c ∉ timeOnlyCols := by decide

/-- C7: the scheduler writes `start + i * 27 minutes` (1620 s) into row i
of every full-timestamp column present in the table and its HH:MM:SS
time-of-day rendering into every present time-only column; absent target
columns are skipped silently (never created); the generated sequence has
fixed 1620-second spacing and is strictly increasing. -/
theorem c7_scheduler (start : ℤ) (t : Table) :
    (∀ i : ℕ, i < t.nrows → (incsOf start t.nrows)[i]? = some (start + 1620 * i)) ∧
    (∀ (i : ℕ) (a b : ℤ), (incsOf start t.nrows)[i]? = some a →
      (incsOf start t.nrows)[i + 1]? = some b → b = a + 1620 ∧ a < b) ∧
    (∀ c ∈ fullCols, t.hasCol c = true →
      (generate27 start t).getCol c = some ((incsOf start t.nrows).map Cell.time)) ∧
    (∀ c ∈ fullCols, t.hasCol c = false → (generate27 start t).hasCol c = false) ∧
    (∀ c ∈ timeOnlyCols, t.hasCol c = true →
      (generate27 start t).getCol c
        = some ((incsOf start t.nrows).map (fun x => Cell.str (fmtHMS x)))) ∧
    (∀ c ∈ timeOnlyCols, t.hasCol c = false →
      (generate27 start t).hasCol c = false) := by
  have hidx : ∀ i : ℕ, i < t.nrows →
      (incsOf start t.nrows)[i]? = some (start + 1620 * i) := by
    intro i hi
    unfold incsOf
    rw [List.getElem?_map, List.getElem?_range hi]
    rfl
  have hlen : (incsOf start t.nrows).length = t.nrows := by simp [incsOf]
  refine ⟨hidx, ?_, ?_, ?_, ?_, ?_⟩
  · intro i a b ha hb
    have hi1 : i + 1 < t.nrows := by
      by_contra hcon
      push_neg at hcon
      rw [List.getElem?_eq_none (by rw [hlen]; exact hcon)] at hb
      exact Option.noConfusion hb
    have hi : i < t.nrows := Nat.lt_of_succ_lt hi1
    rw [hidx i hi] at ha
    rw [hidx (i + 1) hi1] at hb
    injection ha with ha1
    injection hb with hb1
    constructor
    · rw [← ha1, ← hb1]
      push_cast
      ring
    · rw [← ha1, ← hb1]
      push_cast
      linarith
  · intro c hc hp
    unfold generate27
    rw [getCol_foldSet_not_mem timeOnlyCols _ c _ (full_not_timeOnly c hc),
      getCol_foldSet_mem fullCols _ c t fullCols_nodup hc hp]
  · intro c hc hp
    unfold generate27
    rw [hasCol_foldSet, hasCol_foldSet]
    exact hp
  · intro c hc hp
    unfold generate27
    rw [getCol_foldSet_mem timeOnlyCols _ c _ timeOnlyCols_nodup hc
      (by rw [hasCol_foldSet]; exact hp)]
  · intro c hc hp
    unfold generate27
    rw [hasCol_foldSet, hasCol_foldSet]
    exact hp

/-- C7 witness: on a two-row table holding one full-timestamp target, one
time-only target and an unrelated column, starting at 08:00:00, the
scheduler writes [08:00:00, 08:27:00] (as timestamps and as HH:MM:SS
strings) and does not create the absent target columns. -/
theorem c7_scheduler_witness :
    (generate27 28800 tC7).getCol "StartTime - Bookable Resource Booking"
      = some [Cell.time 28800, Cell.time 30420] ∧
    (generate27 28800 tC7).getCol "Time window From - Work Order"
      = some [Cell.str "08:00:00", Cell.str "08:27:00"] ∧
    (generate27 28800 tC7).hasCol "EndTime - Bookable Resource Booking" = false := by
  have h1 := (c7_scheduler 28800 tC7).2.2.1
    "StartTime - Bookable Resource Booking" (by decide) (by decide)
  have h2 := (c7_scheduler 28800 tC7).2.2.2.2.1
    "Time window From - Work Order" (by decide) (by decide)
  have h3 := (c7_scheduler 28800 tC7).2.2.2.1
    "EndTime - Bookable Resource Booking" (by decide) (by decide)
  exact ⟨h1.trans (by decide), h2.trans (by decide), h3⟩

/-! ## Dict-lookup and frame lemmas for the spatial join -/

theorem alookup_filter_keep {κ α : Type} [DecidableEq κ] (c : κ) (l : List (κ × α))
    (p : κ × α → Bool) (hp : ∀ b, p (c, b) = true) :
    alookup c (l.filter p) = alookup c l := by
  induction l with
  | nil => rfl
  | cons q rest ih =>
    obtain ⟨k, w⟩ := q
    by_cases hk : k = c
    · subst hk
      rw [List.filter_cons_of_pos (hp w)]
      simp [alookup]
    · by_cases hq : p (k, w) = true
      · rw [List.filter_cons_of_pos hq]
        simp [alookup, hk, ih]
      · rw [List.filter_cons_of_neg (by simpa using hq)]
        simp [alookup, hk, ih]

theorem getCol_dropCols_keep (t : Table) (cs : List Col) (c : Col) (h : c ∉ cs) :
    (t.dropCols cs).getCol c = t.getCol c := by
  unfold Table.dropCols Table.getCol
  exact alookup_filter_keep c t.cols _ (fun b => decide_eq_true h)

theorem cols_setColValues_absent (t : Table) (c : Col) (vs : List Cell)
    (h : t.hasCol c = false) : (t.setColValues c vs).cols = t.cols ++ [(c, vs)] := by
  unfold Table.setColValues
  simp [h]

theorem dictGet_eq_lastMatch (l : List ((Cell × Cell) × Cell)) (k : Cell × Cell) :
    dictGet l k = lastMatch l k := by
  induction l with
  | nil => rfl
  | cons r rest ih =>
    unfold dictGet at ih ⊢
    rw [List.reverse_cons]
    cases hr : alookup k rest.reverse with
    | some v =>
      rw [alookup_append_some k _ _ v hr]
      unfold lastMatch
      rw [show lastMatch rest k = some v from by rw [← ih]; exact hr]
    | none =>
      rw [alookup_append_none k _ _ hr]
      unfold lastMatch
      rw [show lastMatch rest k = none from by rw [← ih]; exact hr]
      obtain ⟨kk, v⟩ := r
      simp [alookup]

theorem lookupRow_eq_lastMatch (cm : List ((Cell × Cell) × Cell)) (la lo : Cell) :
    lookupRow cm la lo = (lastMatch cm (la, lo)).getD Cell.na := by
  unfold lookupRow
  rw [dictGet_eq_lastMatch]

theorem lastMatch_cons (r : (Cell × Cell) × Cell) (rest : List ((Cell × Cell) × Cell))
    (k : Cell × Cell) :
    lastMatch (r :: rest) k
      = match lastMatch rest k with
        | some v => some v
        | none => if r.1 = k then some r.2 else none := rfl

/-! ## C2: the exact-coordinate join -/

/-- C2 counterexample: coverage samples 0 and 1 both sit at the
exact coordinates of the installation point, with readings -65 and -80; the
produced record carries -80 (the reading of the LAST matching sample),
so it is not equal to the reading of every matching coverage point, in
particular not to the reading -65 of sample 0. -/
theorem c2_counterexample :
    tC2cov.getCell "Latitud" 0 = tC2geo.getCell "Latitude - Functional Location" 0 ∧
    tC2cov.getCell "Longitud" 0 = tC2geo.getCell "Longitude - Functional Location" 0 ∧
    tC2cov.getCell "RSSI / RSCP (dBm)" 0 = some (Cell.num (-65)) ∧
    (joinStep tC2geo tC2cov).1.getCell "dBm" 0 = some (Cell.num (-80)) ∧
    (joinStep tC2geo tC2cov).1.getCell "dBm" 0 ≠ some (Cell.num (-65)) := by
  with_unfolding_all decide

/-- C2 (amended): for every installation point (row i of the working
table), the produced `dBm` value is the reading of the LAST coverage
point, in input order, whose rounded coordinate key equals the rounded
key of that installation point, and it is NaN when no coverage key
matches; a coverage point whose rounded key differs never contributes:
`lastMatch` returns none when no row key matches, returns the appended
reading when a matching row comes last, and ignores appended
non-matching rows. -/
theorem c2_last_write_wins (g c : Table) (i : ℕ) :
    (joinStep g c).1.getCell "dBm" i
      = ((gdfKeys g)[i]?).map
          (fun k => (lastMatch (covMapOf (binCols c "Latitud" "Longitud")) k).getD
            Cell.na) ∧
    (∀ (rows : List ((Cell × Cell) × Cell)) (k : Cell × Cell),
      (∀ r ∈ rows, r.1 ≠ k) → lastMatch rows k = none) ∧
    (∀ (rows : List ((Cell × Cell) × Cell)) (k : Cell × Cell) (v : Cell),
      lastMatch (rows ++ [(k, v)]) k = some v) ∧
    (∀ (rows : List ((Cell × Cell) × Cell)) (r : (Cell × Cell) × Cell)
      (k : Cell × Cell), r.1 ≠ k → lastMatch (rows ++ [r]) k = lastMatch rows k) := by
  refine ⟨?_, ?_, ?_, ?_⟩
  · unfold Table.getCell
    have hj : (joinStep g c).1
        = (((binCols g "Latitude - Functional Location"
            "Longitude - Functional Location").setColValues "dBm"
            (dbmValsOf g c)).setColValues "Gateway"
            (((((binCols g "Latitude - Functional Location"
                "Longitude - Functional Location").setColValues "dBm"
                (dbmValsOf g c)).getColD "dBm").map classifyCell))).dropCols
          ["LatBin", "LonBin"] := rfl
    rw [hj]
    unfold Table.getColD
    rw [getCol_dropCols_keep _ _ _ (by decide),
      getCol_setColValues_ne _ _ _ _ (by decide), getCol_setColValues_self]
    show (dbmValsOf g c)[i]? = _
    unfold dbmValsOf
    rw [List.getElem?_map]
    cases hk : (gdfKeys g)[i]? with
    | none => rfl
    | some k =>
      obtain ⟨ka, kb⟩ := k
      show some (lookupRow _ ka kb) = some _
      rw [lookupRow_eq_lastMatch]
  · intro rows k h
    induction rows with
    | nil => rfl
    | cons r rest ih =>
      unfold lastMatch
      rw [ih (fun x hx => h x (List.mem_cons_of_mem r hx)),
        if_neg (h r (List.mem_cons_self r rest))]
  · intro rows k v
    induction rows with
    | nil => simp [lastMatch]
    | cons r rest ih =>
      rw [List.cons_append, lastMatch_cons, ih]
  · intro rows r k h
    induction rows with
    | nil =>
      rw [List.nil_append, lastMatch_cons]
      simp [lastMatch, h]
    | cons q rest ih =>
      rw [List.cons_append, lastMatch_cons, ih, ← lastMatch_cons]

/-- C2 witness: the record at row 0 carries the last matching reading,
and a key matching no coverage row yields no reading. -/
theorem c2_last_write_wins_witness :
    (joinStep tC2geo tC2cov).1.getCell "dBm" 0
      = some ((lastMatch (covMapOf (binCols tC2cov "Latitud" "Longitud"))
          (Cell.num 14, Cell.num (-17))).getD Cell.na) ∧
    lastMatch [((Cell.num 1, Cell.num 2), Cell.num 5)] (Cell.num 3, Cell.num 4)
      = none := by
  have h := c2_last_write_wins tC2geo tC2cov 0
  exact ⟨h.1.trans (by with_unfolding_all decide),
    h.2.1 [((Cell.num 1, Cell.num 2), Cell.num 5)] (Cell.num 3, Cell.num 4)
      (by decide)⟩

/-! ## C3: failed upload leaves a partially seeded store -/

/-- C3 (code-bug evidence): with a well-formed georadar table and a
coverage table missing the reading column, the processing block fails the
coverage schema check only AFTER seeding `df` and `geo_df` from the
georadar input, so the session is left partially seeded — `df` is no
longer the empty unseeded table — contradicting the requirement of the spec
that a `SchemaError` upload must not partially seed the store. -/
theorem c3_partial_seed_bug :
    processUpload tGeoOk tCovBad initState
      = { df := seedGeo tGeoOk, geoDf := some tGeoOk, covDf := none,
          processed := false } ∧
    processUpload tGeoOk tCovBad initState ≠ initState ∧
    (processUpload tGeoOk tCovBad initState).df ≠ Table.mk [] ∧
    (processUpload tGeoOk tCovBad initState).processed = false := by
  with_unfolding_all decide

/-! ## C8: frame condition of the spatial join -/

/-- C8 counterexample: after the join, the coverage table passed in is
not unchanged — it has gained the LatBin and LonBin columns. -/
theorem c8_counterexample :
    (joinStep tC8geo tC8cov).2 ≠ tC8cov ∧
    (joinStep tC8geo tC8cov).2.colNames
      = ["Latitud", "Longitud", "RSSI / RSCP (dBm)", "LatBin", "LonBin"] := by
  with_unfolding_all decide

/-- C8 (amended): the join mutates the coverage table only by appending
the two derived bin columns — every pre-existing column keeps its name
and values — and the georadar input itself is untouched: the session
copies saved on a successful upload are exactly the raw inputs. -/
theorem c8_join_frame (g c : Table)
    (hLat : c.hasCol "LatBin" = false) (hLon : c.hasCol "LonBin" = false) :
    (joinStep g c).2.cols
      = c.cols ++ [("LatBin", (c.getColD "Latitud").map roundCell),
                   ("LonBin", (c.getColD "Longitud").map roundCell)] ∧
    (∀ d : Col, d ≠ "LatBin" → d ≠ "LonBin" →
      (joinStep g c).2.getCol d = c.getCol d) ∧
    ((geoRequired.all fun x => g.hasCol x) = true →
      (covRequired.all fun x => c.hasCol x) = true →
      (processUpload g c initState).geoDf = some g ∧
      (processUpload g c initState).covDf = some c) := by
  refine ⟨?_, ?_, ?_⟩
  · show (binCols c "Latitud" "Longitud").cols = _
    unfold binCols
    have h2 : ((c.setColValues "LatBin"
        ((c.getColD "Latitud").map roundCell)).hasCol "LonBin") = false := by
      rw [hasCol_setColValues_ne _ _ _ _ (by decide)]
      exact hLon
    rw [cols_setColValues_absent _ _ _ h2, cols_setColValues_absent _ _ _ hLat,
      List.append_assoc]
    rfl
  · intro d h1 h2
    show (binCols c "Latitud" "Longitud").getCol d = _
    unfold binCols
    rw [getCol_setColValues_ne _ _ _ _ h2, getCol_setColValues_ne _ _ _ _ h1]
  · intro hg hc2
    simp [processUpload, hg, hc2]

/-- C8 witness: on concrete inputs, the coverage table keeps its reading
column unchanged and gains exactly the two bin columns, and the saved
session copies equal the raw inputs. -/
theorem c8_join_frame_witness :
    (joinStep tGeoOk tC8cov).2.cols
      = tC8cov.cols ++ [("LatBin", (tC8cov.getColD "Latitud").map roundCell),
                        ("LonBin", (tC8cov.getColD "Longitud").map roundCell)] ∧
    (joinStep tGeoOk tC8cov).2.getCol "RSSI / RSCP (dBm)"
      = tC8cov.getCol "RSSI / RSCP (dBm)" ∧
    (processUpload tGeoOk tC8cov initState).geoDf = some tGeoOk ∧
    (processUpload tGeoOk tC8cov initState).covDf = some tC8cov := by
  have h := c8_join_frame tGeoOk tC8cov (by decide) (by decide)
  have h3 := h.2.2 (by decide) (by decide)
  exact ⟨h.1, h.2.1 _ (by decide) (by decide), h3.1, h3.2⟩

end FsCov
